import Mathlib

/- Verification of the interactive remote-session engine of this repository
(src/ise-export.py and src/ise-export-test.py).

Timing model: the poll loop of wait_for_prompt sleeps a fixed interval p
(0.1 s in the source) at the end of every iteration that does not return,
and the work inside an iteration (the availability check, the read, the
substring test) is treated as instantaneous.  Hence the k-th iteration of
the loop runs at elapsed wall-clock time k * p, and the loop condition
time.time() - start_time < timeout reads k * p < timeout.

Transport model: the bytes the channel delivers during one wait_for_prompt
call are a function chunks : Nat -> Option String; chunks k is the text
returned by channel.recv(1024).decode at the k-th poll when
channel.recv_ready() is true there, and none when recv_ready() is false.
For a whole run of main, session : Nat -> Nat -> Option String gives the
chunk stream seen by the i-th wait_for_prompt call of the script.

The Python function returns only True or False; the embedding additionally
exposes, as ghost observables, the elapsed time at the moment of return and
the contents of the local buffer variable at that moment (the concatenation
of all chunks read by this call, each of which the source also writes to
the log). -/

set_option maxHeartbeats 1000000

/-- Concatenation of the chunks delivered in the first n polls of one
wait_for_prompt call (a poll with recv_ready() false contributes nothing).
This is the value of the local variable buffer after n loop iterations,
as long as the call has not yet returned. -/
def readSoFar (chunks : Nat → Option String) : Nat → String
  | 0 => ""
  | n + 1 => readSoFar chunks n ++ (chunks n).getD ""

/-- The while loop of wait_for_prompt (src/ise-export.py lines 140-147,
identical in src/ise-export-test.py lines 54-61), entered at poll index k
with the shown buffer contents.  Mirrors the source: while elapsed < timeout,
if recv_ready read a chunk and append it, return True when the prompt occurs
in the buffer, otherwise sleep p and re-poll; when the while condition fails,
return False.  The extra components of the result are the elapsed time and
the buffer at return. -/
def wfpLoop (chunks : Nat → Option String) (prompt : String) (timeout p : ℚ)
    (hp : 0 < p) (buffer : String) (k : Nat) : Bool × ℚ × String :=
  if h : (k : ℚ) * p < timeout then
    match chunks k with
    | some chunk =>
      if prompt.data <:+: (buffer ++ chunk).data then
        (true, (k : ℚ) * p, buffer ++ chunk)
      else
        wfpLoop chunks prompt timeout p hp (buffer ++ chunk) (k + 1)
    | none => wfpLoop chunks prompt timeout p hp buffer (k + 1)
  else
    (false, (k : ℚ) * p, buffer)
termination_by (⌈timeout / p⌉).toNat - k
decreasing_by
  all_goals
    have hk : (k : ℚ) < timeout / p := (lt_div_iff₀ hp).mpr h
    have h2 : (k : ℤ) < ⌈timeout / p⌉ := by exact_mod_cast hk.trans_le (Int.le_ceil _)
    omega

/-- wait_for_prompt (src/ise-export.py lines 136-148): start_time is now,
buffer is initialized to the empty string, and the loop starts at poll 0.
The parameter p is the polling interval, 0.1 s at every call site of the
source; the source never sleeps a non-positive interval, hence hp. -/
def wait_for_prompt (chunks : Nat → Option String) (prompt : String)
    (timeout p : ℚ) (hp : 0 < p) : Bool × ℚ × String :=
  wfpLoop chunks prompt timeout p hp "" 0

/-- Unfolding of the loop when the while condition has failed. -/
theorem wfpLoop_eq_stop (chunks : Nat → Option String) (prompt : String)
    (t p : ℚ) (hp : 0 < p) (buffer : String) (k : Nat)
    (h : ¬ (k : ℚ) * p < t) :
    wfpLoop chunks prompt t p hp buffer k = (false, (k : ℚ) * p, buffer) := by
  rw [wfpLoop.eq_def]
  simp only [dif_neg h]

/-- Unfolding of the loop at a poll where no bytes are ready. -/
theorem wfpLoop_eq_none (chunks : Nat → Option String) (prompt : String)
    (t p : ℚ) (hp : 0 < p) (buffer : String) (k : Nat)
    (h : (k : ℚ) * p < t) (hc : chunks k = none) :
    wfpLoop chunks prompt t p hp buffer k =
      wfpLoop chunks prompt t p hp buffer (k + 1) := by
  rw [wfpLoop.eq_def]
  simp only [dif_pos h, hc]

/-- Unfolding of the loop at a poll that reads a chunk completing a match. -/
theorem wfpLoop_eq_match (chunks : Nat → Option String) (prompt : String)
    (t p : ℚ) (hp : 0 < p) (buffer : String) (k : Nat) (c : String)
    (h : (k : ℚ) * p < t) (hc : chunks k = some c)
    (hm : prompt.data <:+: (buffer ++ c).data) :
    wfpLoop chunks prompt t p hp buffer k = (true, (k : ℚ) * p, buffer ++ c) := by
  rw [wfpLoop.eq_def]
  simp only [dif_pos h, hc, if_pos hm]

/-- Unfolding of the loop at a poll that reads a chunk without completing
a match. -/
theorem wfpLoop_eq_nomatch (chunks : Nat → Option String) (prompt : String)
    (t p : ℚ) (hp : 0 < p) (buffer : String) (k : Nat) (c : String)
    (h : (k : ℚ) * p < t) (hc : chunks k = some c)
    (hm : ¬ prompt.data <:+: (buffer ++ c).data) :
    wfpLoop chunks prompt t p hp buffer k =
      wfpLoop chunks prompt t p hp (buffer ++ c) (k + 1) := by
  rw [wfpLoop.eq_def]
  simp only [dif_pos h, hc, if_neg hm]

theorem readSoFar_succ_some (chunks : Nat → Option String) (k : Nat) (c : String)
    (hc : chunks k = some c) :
    readSoFar chunks (k + 1) = readSoFar chunks k ++ c := by
  simp [readSoFar, hc]

theorem readSoFar_succ_none (chunks : Nat → Option String) (k : Nat)
    (hc : chunks k = none) :
    readSoFar chunks (k + 1) = readSoFar chunks k := by
  simp [readSoFar, hc]

/-- Shape of every wfpLoop result, entered at poll k with the buffer holding
exactly the bytes read so far.  A true result is produced at some in-time
poll m that read a chunk making the prompt occur in the buffer; a false
result is produced at the first poll m at or after k whose elapsed time
reaches the timeout, with the buffer holding everything read before m. -/
theorem wfpLoop_spec (chunks : Nat → Option String) (prompt : String)
    (t p : ℚ) (hp : 0 < p) :
    ∀ n k buffer, (⌈t / p⌉).toNat - k ≤ n → buffer = readSoFar chunks k →
      ((wfpLoop chunks prompt t p hp buffer k).1 = true →
        ∃ m, k ≤ m ∧ (m : ℚ) * p < t ∧ (chunks m).isSome = true ∧
          prompt.data <:+: (readSoFar chunks (m + 1)).data ∧
          wfpLoop chunks prompt t p hp buffer k =
            (true, (m : ℚ) * p, readSoFar chunks (m + 1))) ∧
      ((wfpLoop chunks prompt t p hp buffer k).1 = false →
        ∃ m, k ≤ m ∧ t ≤ (m : ℚ) * p ∧
          (∀ j, k ≤ j → j < m → (j : ℚ) * p < t) ∧
          wfpLoop chunks prompt t p hp buffer k =
            (false, (m : ℚ) * p, readSoFar chunks m)) := by
  intro n
  induction n with
  | zero =>
    intro k buffer hn hb
    have hnot : ¬ (k : ℚ) * p < t := by
      intro h
      have hk : (k : ℚ) < t / p := (lt_div_iff₀ hp).mpr h
      have h2 : (k : ℤ) < ⌈t / p⌉ := by exact_mod_cast hk.trans_le (Int.le_ceil _)
      omega
    rw [wfpLoop_eq_stop chunks prompt t p hp buffer k hnot]
    refine ⟨by simp, fun _ => ⟨k, le_refl k, not_lt.mp hnot, ?_, by rw [hb]⟩⟩
    intro j hj1 hj2
    exact absurd (lt_of_le_of_lt hj1 hj2) (lt_irrefl k)
  | succ n ih =>
    intro k buffer hn hb
    by_cases h : (k : ℚ) * p < t
    · have hkN : k < (⌈t / p⌉).toNat := by
        have hk : (k : ℚ) < t / p := (lt_div_iff₀ hp).mpr h
        have h2 : (k : ℤ) < ⌈t / p⌉ := by exact_mod_cast hk.trans_le (Int.le_ceil _)
        omega
      cases hc : chunks k with
      | some c =>
        by_cases hm : prompt.data <:+: (buffer ++ c).data
        · rw [wfpLoop_eq_match chunks prompt t p hp buffer k c h hc hm]
          have hb' : buffer ++ c = readSoFar chunks (k + 1) := by
            rw [hb, readSoFar_succ_some chunks k c hc]
          refine ⟨fun _ => ⟨k, le_refl k, h, by simp [hc], ?_, by rw [hb']⟩, by simp⟩
          rw [← hb']; exact hm
        · have hb' : buffer ++ c = readSoFar chunks (k + 1) := by
            rw [hb, readSoFar_succ_some chunks k c hc]
          rw [wfpLoop_eq_nomatch chunks prompt t p hp buffer k c h hc hm]
          have H := ih (k + 1) (buffer ++ c) (by omega) hb'
          refine ⟨fun htrue => ?_, fun hfalse => ?_⟩
          · obtain ⟨m, hkm, hmt, hsome, hin, heq⟩ := H.1 htrue
            exact ⟨m, by omega, hmt, hsome, hin, heq⟩
          · obtain ⟨m, hkm, hmt, hall, heq⟩ := H.2 hfalse
            refine ⟨m, by omega, hmt, ?_, heq⟩
            intro j hj1 hj2
            rcases Nat.lt_or_ge j (k + 1) with hj | hj
            · have : j = k := by omega
              rw [this]; exact h
            · exact hall j hj hj2
      | none =>
        have hb' : buffer = readSoFar chunks (k + 1) := by
          rw [hb, readSoFar_succ_none chunks k hc]
        rw [wfpLoop_eq_none chunks prompt t p hp buffer k h hc]
        have H := ih (k + 1) buffer (by omega) hb'
        refine ⟨fun htrue => ?_, fun hfalse => ?_⟩
        · obtain ⟨m, hkm, hmt, hsome, hin, heq⟩ := H.1 htrue
          exact ⟨m, by omega, hmt, hsome, hin, heq⟩
        · obtain ⟨m, hkm, hmt, hall, heq⟩ := H.2 hfalse
          refine ⟨m, by omega, hmt, ?_, heq⟩
          intro j hj1 hj2
          rcases Nat.lt_or_ge j (k + 1) with hj | hj
          · have : j = k := by omega
            rw [this]; exact h
          · exact hall j hj hj2
    · rw [wfpLoop_eq_stop chunks prompt t p hp buffer k h]
      refine ⟨by simp, fun _ => ⟨k, le_refl k, not_lt.mp h, ?_, by rw [hb]⟩⟩
      intro j hj1 hj2
      exact absurd (lt_of_le_of_lt hj1 hj2) (lt_irrefl k)

/-- Completeness of the matcher: if some in-time poll m reads a chunk after
which the prompt occurs in the bytes read so far, the loop returns true. -/
theorem wfpLoop_match_complete (chunks : Nat → Option String) (prompt : String)
    (t p : ℚ) (hp : 0 < p) :
    ∀ n k buffer, buffer = readSoFar chunks k →
      ∀ m, k ≤ m → m - k ≤ n → (m : ℚ) * p < t → (chunks m).isSome = true →
      prompt.data <:+: (readSoFar chunks (m + 1)).data →
      (wfpLoop chunks prompt t p hp buffer k).1 = true := by
  intro n
  induction n with
  | zero =>
    intro k buffer hb m hkm hmk hmt hsome hin
    have hmeq : m = k := by omega
    subst hmeq
    cases hc : chunks m with
    | none => rw [hc] at hsome; simp at hsome
    | some c =>
      have hin' : prompt.data <:+: (buffer ++ c).data := by
        rw [hb, ← readSoFar_succ_some chunks m c hc]; exact hin
      rw [wfpLoop_eq_match chunks prompt t p hp buffer m c hmt hc hin']
  | succ n ih =>
    intro k buffer hb m hkm hmk hmt hsome hin
    by_cases hmeq : m = k
    · subst hmeq
      cases hc : chunks m with
      | none => rw [hc] at hsome; simp at hsome
      | some c =>
        have hin' : prompt.data <:+: (buffer ++ c).data := by
          rw [hb, ← readSoFar_succ_some chunks m c hc]; exact hin
        rw [wfpLoop_eq_match chunks prompt t p hp buffer m c hmt hc hin']
    · have hk1 : k + 1 ≤ m := by omega
      have h : (k : ℚ) * p < t := by
        have hcast : (k : ℚ) ≤ (m : ℚ) := Nat.cast_le.mpr hkm
        exact lt_of_le_of_lt (mul_le_mul_of_nonneg_right hcast hp.le) hmt
      cases hc : chunks k with
      | some c =>
        by_cases hmm : prompt.data <:+: (buffer ++ c).data
        · rw [wfpLoop_eq_match chunks prompt t p hp buffer k c h hc hmm]
        · rw [wfpLoop_eq_nomatch chunks prompt t p hp buffer k c h hc hmm]
          exact ih (k + 1) (buffer ++ c)
            (by rw [hb, readSoFar_succ_some chunks k c hc]) m hk1 (by omega)
            hmt hsome hin
      | none =>
        rw [wfpLoop_eq_none chunks prompt t p hp buffer k h hc]
        exact ih (k + 1) buffer
          (by rw [hb, readSoFar_succ_none chunks k hc]) m hk1 (by omega)
          hmt hsome hin

theorem readSoFar_of_none (chunks : Nat → Option String)
    (hnone : ∀ k, chunks k = none) : ∀ n, readSoFar chunks n = "" := by
  intro n
  induction n with
  | zero => rfl
  | succ n ih => rw [readSoFar_succ_none chunks n (hnone n), ih]

/-- A call during which the channel never has bytes ready returns False. -/
theorem wait_false_of_none (chunks : Nat → Option String) (prompt : String)
    (t p : ℚ) (hp : 0 < p) (hnone : ∀ k, chunks k = none) :
    (wait_for_prompt chunks prompt t p hp).1 = false := by
  cases hb : (wait_for_prompt chunks prompt t p hp).1 with
  | false => rfl
  | true =>
    have H := wfpLoop_spec chunks prompt t p hp (⌈t / p⌉).toNat 0 "" (le_refl _) rfl
    obtain ⟨m, _, _, hsome, _, _⟩ := H.1 hb
    rw [hnone m] at hsome
    simp at hsome

/-- A call whose very first poll reads a chunk containing the prompt
returns True (as long as the timeout is positive). -/
theorem wait_true_at_zero (chunks : Nat → Option String) (prompt : String)
    (t p : ℚ) (hp : 0 < p) (ht : 0 < t) (c : String)
    (h0 : chunks 0 = some c) (hin : prompt.data <:+: c.data) :
    (wait_for_prompt chunks prompt t p hp).1 = true := by
  have h1 : readSoFar chunks 1 = "" ++ c := by
    rw [readSoFar_succ_some chunks 0 c h0]
    rfl
  refine wfpLoop_match_complete chunks prompt t p hp 0 0 "" rfl 0 (le_refl 0)
    (by omega) (by simpa using ht) (by rw [h0]; rfl) ?_
  rw [h1, String.empty_append]
  exact hin

/-- C1.  With a positive timeout t, polling interval 0 < p < t, and a prompt
that never occurs in the bytes read from the transport, wait_for_prompt
returns False (it is a total function, so it terminates), its elapsed time
at return is at least t and less than t + p, and in particular it never
returns False before t has elapsed. -/
theorem wait_for_prompt_times_out (chunks : Nat → Option String)
    (prompt : String) (t p : ℚ) (ht : 0 < t) (hp : 0 < p) (hpt : p < t)
    (hnever : ∀ n, ¬ prompt.data <:+: (readSoFar chunks n).data) :
    (wait_for_prompt chunks prompt t p hp).1 = false ∧
    t ≤ (wait_for_prompt chunks prompt t p hp).2.1 ∧
    (wait_for_prompt chunks prompt t p hp).2.1 < t + p := by
  have H := wfpLoop_spec chunks prompt t p hp (⌈t / p⌉).toNat 0 "" (le_refl _) rfl
  have hfalse : (wait_for_prompt chunks prompt t p hp).1 = false := by
    cases hb : (wait_for_prompt chunks prompt t p hp).1 with
    | false => rfl
    | true =>
      obtain ⟨m, _, _, _, hin, _⟩ := H.1 hb
      exact absurd hin (hnever (m + 1))
  obtain ⟨m, _, hmt, hall, heq⟩ := H.2 hfalse
  have hm1 : 1 ≤ m := by
    by_contra h0
    have hm0 : m = 0 := by omega
    rw [hm0] at hmt
    simp at hmt
    exact absurd ht (not_lt.mpr hmt)
  have hprev : ((m - 1 : ℕ) : ℚ) * p < t := hall (m - 1) (Nat.zero_le _) (by omega)
  have hcast : ((m : ℕ) : ℚ) = ((m - 1 : ℕ) : ℚ) + 1 := by
    have h2 : (m - 1) + 1 = m := Nat.succ_pred_eq_of_pos hm1
    calc ((m : ℕ) : ℚ) = (((m - 1) + 1 : ℕ) : ℚ) := by rw [h2]
    _ = ((m - 1 : ℕ) : ℚ) + 1 := by push_cast; ring
  have helapsed : (wait_for_prompt chunks prompt t p hp).2.1 = (m : ℚ) * p := by
    show (wfpLoop chunks prompt t p hp "" 0).2.1 = (m : ℚ) * p
    rw [heq]
  refine ⟨hfalse, ?_, ?_⟩
  · rw [helapsed]; exact hmt
  · rw [helapsed, hcast]
    have : ((m - 1 : ℕ) : ℚ) * p + p < t + p := by linarith
    linarith [this]

theorem wait_for_prompt_times_out_witness :
    (0 : ℚ) < 2 ∧ (0 : ℚ) < 1 ∧ (1 : ℚ) < 2 ∧
    (∀ n, ¬ "a".data <:+: (readSoFar (fun _ => none) n).data) ∧
    ((wait_for_prompt (fun _ => none) "a" 2 1 one_pos).1 = false ∧
      2 ≤ (wait_for_prompt (fun _ => none) "a" 2 1 one_pos).2.1 ∧
      (wait_for_prompt (fun _ => none) "a" 2 1 one_pos).2.1 < 2 + 1) := by
  have hnever : ∀ n, ¬ "a".data <:+: (readSoFar (fun _ => none) n).data := by
    intro n
    rw [readSoFar_of_none (fun _ => none) (fun k => rfl) n]
    decide
  exact ⟨by norm_num, by norm_num, by norm_num, hnever,
    wait_for_prompt_times_out (fun _ => none) "a" 2 1 (by norm_num) one_pos
      (by norm_num) hnever⟩

/-- C2.  If at some in-time poll m the channel had bytes ready and the prompt
occurs in the concatenation of all chunks read in the call up to and
including that poll — in particular when the prompt is split across two
reads and no single chunk contains it whole — then the call returns True:
the buffer persists and grows across reads within the call. -/
theorem wait_for_prompt_matches_split_chunks (chunks : Nat → Option String)
    (prompt : String) (t p : ℚ) (hp : 0 < p) (m : Nat)
    (hmt : (m : ℚ) * p < t) (hsome : (chunks m).isSome = true)
    (hin : prompt.data <:+: (readSoFar chunks (m + 1)).data) :
    (wait_for_prompt chunks prompt t p hp).1 = true :=
  wfpLoop_match_complete chunks prompt t p hp m 0 "" rfl m (Nat.zero_le m)
    (by omega) hmt hsome hin

/-- A call in which the target "ab" is split across the reads "xa" and "bz":
no single chunk contains it whole. -/
def splitChunks : Nat → Option String :=
  fun k => if k = 0 then some "xa" else if k = 1 then some "bz" else none

theorem wait_for_prompt_matches_split_chunks_witness :
    ((1 : ℕ) : ℚ) * 1 < 3 ∧ (splitChunks 1).isSome = true ∧
    "ab".data <:+: (readSoFar splitChunks 2).data ∧
    (wait_for_prompt splitChunks "ab" 3 1 one_pos).1 = true := by
  have hin : "ab".data <:+: (readSoFar splitChunks 2).data := by decide
  exact ⟨by norm_num, rfl, hin,
    wait_for_prompt_matches_split_chunks splitChunks "ab" 3 1 one_pos 1
      (by norm_num) rfl hin⟩

/-- C6.  Every call produces a complete step outcome: the matched flag, the
elapsed time at return, and the captured output (the buffer, whose chunks
the source also logs).  A True result carries the full buffer read so far,
in which the prompt occurs, at an in-time poll; a False result is produced
as soon as the timeout has elapsed and carries whatever partial output was
collected by then. -/
theorem wait_for_prompt_step_result (chunks : Nat → Option String)
    (prompt : String) (t p : ℚ) (hp : 0 < p) :
    ((wait_for_prompt chunks prompt t p hp).1 = true →
      ∃ m : ℕ, (m : ℚ) * p < t ∧ (chunks m).isSome = true ∧
        prompt.data <:+: (readSoFar chunks (m + 1)).data ∧
        wait_for_prompt chunks prompt t p hp =
          (true, (m : ℚ) * p, readSoFar chunks (m + 1))) ∧
    ((wait_for_prompt chunks prompt t p hp).1 = false →
      ∃ m : ℕ, t ≤ (m : ℚ) * p ∧ (∀ j : ℕ, j < m → (j : ℚ) * p < t) ∧
        wait_for_prompt chunks prompt t p hp =
          (false, (m : ℚ) * p, readSoFar chunks m)) := by
  have H := wfpLoop_spec chunks prompt t p hp (⌈t / p⌉).toNat 0 "" (le_refl _) rfl
  constructor
  · intro h
    obtain ⟨m, _, hmt, hsome, hin, heq⟩ := H.1 h
    exact ⟨m, hmt, hsome, hin, heq⟩
  · intro h
    obtain ⟨m, _, hmt, hall, heq⟩ := H.2 h
    exact ⟨m, hmt, fun j hj => hall j (Nat.zero_le j) hj, heq⟩

theorem wait_for_prompt_step_result_witness :
    wait_for_prompt (fun _ => none) "a" 2 1 one_pos = (false, 2, "") := by
  have hf : (wait_for_prompt (fun _ => none) "a" 2 1 one_pos).1 = false :=
    wait_false_of_none (fun _ => none) "a" 2 1 one_pos (fun k => rfl)
  obtain ⟨m, hmt, hall, heq⟩ :=
    (wait_for_prompt_step_result (fun _ => none) "a" 2 1 one_pos).2 hf
  have h1 : (2 : ℚ) ≤ (m : ℚ) := by simpa using hmt
  have hge : 2 ≤ m := by exact_mod_cast h1
  have hlt : m ≤ 2 := by
    by_contra hc
    have h2 := hall 2 (by omega)
    norm_num at h2
  have hm2 : m = 2 := by omega
  rw [heq, hm2, readSoFar_of_none (fun _ => none) (fun k => rfl) 2]
  norm_num

/-- Chunk stream of an earlier step whose trailing output already contains
the next step marker NEXTMARK. -/
def earlyChunks : Nat → Option String :=
  fun k => if k = 0 then some "ise-ppan-cx/admin# NEXTMARK " else none

/-- C5 counterexample.  The buffer does not persist across calls: during the
first wait the channel delivers text that already contains the next step
marker NEXTMARK, the first wait matches its own prompt, and yet a later wait
for NEXTMARK in the same session — during which no new bytes arrive —
returns False, because wait_for_prompt initializes buffer to the empty
string on every call (line 139 of src/ise-export.py). -/
theorem buffer_reset_between_calls_cex :
    "NEXTMARK".data <:+: (readSoFar earlyChunks 1).data ∧
    (wait_for_prompt earlyChunks "ise-ppan-cx/admin#" 30 1 one_pos).1 = true ∧
    (wait_for_prompt (fun _ => none) "NEXTMARK" 30 1 one_pos).1 = false := by
  refine ⟨by decide, ?_,
    wait_false_of_none (fun _ => none) "NEXTMARK" 30 1 one_pos (fun k => rfl)⟩
  exact wait_true_at_zero earlyChunks "ise-ppan-cx/admin#" 30 1 one_pos
    (by norm_num) "ise-ppan-cx/admin# NEXTMARK " rfl (by decide)

/-- C5 as amended.  The matching buffer is local to one wait_for_prompt
call: it starts empty and accumulates only the bytes read during that call,
so a True result requires the prompt to occur in the bytes delivered within
the call itself — text received during an earlier step can never satisfy a
later step's expectation. -/
theorem match_requires_bytes_within_call (chunks : Nat → Option String)
    (prompt : String) (t p : ℚ) (hp : 0 < p)
    (h : (wait_for_prompt chunks prompt t p hp).1 = true) :
    ∃ m, (chunks m).isSome = true ∧
      prompt.data <:+: (readSoFar chunks (m + 1)).data := by
  have H := wfpLoop_spec chunks prompt t p hp (⌈t / p⌉).toNat 0 "" (le_refl _) rfl
  obtain ⟨m, _, _, hsome, hin, _⟩ := H.1 h
  exact ⟨m, hsome, hin⟩

theorem match_requires_bytes_within_call_witness :
    ∃ m, (splitChunks m).isSome = true ∧
      "ab".data <:+: (readSoFar splitChunks (m + 1)).data := by
  refine match_requires_bytes_within_call splitChunks "ab" 3 1 one_pos ?_
  exact wfpLoop_match_complete splitChunks "ab" 3 1 one_pos 1 0 "" rfl 1
    (Nat.zero_le 1) (by omega) (by norm_num) rfl (by decide)

/-- C10.  For every non-positive timeout the while condition fails at the
very first check: wait_for_prompt returns False immediately, reads nothing
(the returned buffer is empty), sleeps zero times (elapsed time 0), and can
never match even when the target is already available on the channel. -/
theorem wait_for_prompt_nonpositive_timeout (chunks : Nat → Option String)
    (prompt : String) (t p : ℚ) (hp : 0 < p) (ht : t ≤ 0) :
    wait_for_prompt chunks prompt t p hp = (false, 0, "") := by
  have h : ¬ ((0 : ℕ) : ℚ) * p < t := by
    simp only [Nat.cast_zero, zero_mul, not_lt]
    exact ht
  show wfpLoop chunks prompt t p hp "" 0 = (false, 0, "")
  rw [wfpLoop_eq_stop chunks prompt t p hp "" 0 h]
  norm_num

theorem wait_for_prompt_nonpositive_timeout_witness :
    (-1 : ℚ) ≤ 0 ∧
    (((fun _ => some "target") : Nat → Option String) 0).isSome = true ∧
    wait_for_prompt (fun _ => some "target") "target" (-1) 1 one_pos =
      (false, 0, "") := by
  exact ⟨by norm_num, rfl,
    wait_for_prompt_nonpositive_timeout (fun _ => some "target") "target"
      (-1) 1 one_pos (by norm_num)⟩

/-- The polling interval used by every wait_for_prompt call of the source:
time.sleep(0.1). -/
def pollInterval : ℚ := 1 / 10

theorem pollInterval_pos : 0 < pollInterval := by norm_num [pollInterval]

/-- The expected marker of the i-th wait_for_prompt call of main, in call
order (src/ise-export.py lines 181, 190, 196, 201, 207, 214; identical in
src/ise-export-test.py). -/
def stepPrompt : Nat → String
  | 0 => "ise-ppan-cx/admin#"
  | 1 => "Selection configuration option"
  | 2 => "Starting to generate All Endpoints report"
  | 3 => "Completed generating All Endpoints report"
  | _ => "ise-ppan-cx/admin#"

/-- Result of the i-th wait_for_prompt call of main on a given session:
each call uses the default timeout=30 and the 0.1 s polling interval. -/
def stepWait (session : Nat → Nat → Option String) (i : Nat) : Bool :=
  (wait_for_prompt (session i) (stepPrompt i) 30 pollInterval pollInterval_pos).1

/-- The error message logged when the i-th wait_for_prompt call of main
returns False (the logging.error literals of both scripts). -/
def timeoutMsg : Nat → String
  | 0 => "Timeout waiting for initial prompt"
  | 1 => "Timeout waiting for menu"
  | 2 => "Timeout waiting for report start"
  | 3 => "Timeout waiting for report completion"
  | 4 => "Timeout waiting for admin prompt"
  | _ => "Timeout waiting for copy completion"

def cmd1 : String := "application configure ise\n"

def cmd2 : String := "16\n"

def cmd3 : String := "0\n"

/-- NFS_PATH of src/ise-export-test.py line 45. -/
def NFS_PATH : String := "/home/nfsshare"

/-- CSV_FILE of src/ise-export-test.py line 48, as a function of the
current date string TODAY. -/
def CSV_FILE (today : String) : String := "FullReport_" ++ today ++ ".csv"

/-- The file-copy command of src/ise-export-test.py line 112, newline
included. -/
def copyCmd (today : String) : String :=
  "copy disk:/" ++ CSV_FILE today ++ " repository NFS" ++ "\n"

/-- The message logged by the generic exception handler of
src/ise-export.py line 243 when line 213 raises NameError because CSV_FILE
is defined nowhere in that file.  Python renders str(e) with single quotes
around the name; the quotes are omitted here. -/
def nameErrorMsg : String := "An error occurred: name CSV_FILE is not defined"

/-- Observable outcome of one run of main (after a successful connect and
invoke_shell): the process exit status, the command lines written to the
channel in order, the last error message logged (none on full success),
how many times the transport (channel + ssh client) was closed, and
whether an upload was attempted. -/
structure RunResult where
  exitCode : Nat
  sent : List String
  errLog : Option String
  closeCount : Nat
  uploadAttempted : Bool

/-- main of src/ise-export-test.py (lines 64-140) after a successful
ssh.connect and invoke_shell.  session i is the chunk stream seen by the
i-th wait_for_prompt call; fileExists models os.path.exists on
NFS_PATH/CSV_FILE, uploadOk models os.system(upload_cmd) == 0.  Each
sys.exit(1) after a failed wait happens before any close: no branch of the
source closes the transport except the straight-line code after the sixth
successful wait (lines 118-119). -/
def mainTest (today : String) (session : Nat → Nat → Option String)
    (fileExists uploadOk : Bool) : RunResult :=
  if stepWait session 0 = false then
    ⟨1, [], some "Timeout waiting for initial prompt", 0, false⟩
  else if stepWait session 1 = false then
    ⟨1, [cmd1], some "Timeout waiting for menu", 0, false⟩
  else if stepWait session 2 = false then
    ⟨1, [cmd1, cmd2], some "Timeout waiting for report start", 0, false⟩
  else if stepWait session 3 = false then
    ⟨1, [cmd1, cmd2], some "Timeout waiting for report completion", 0, false⟩
  else if stepWait session 4 = false then
    ⟨1, [cmd1, cmd2, cmd3], some "Timeout waiting for admin prompt", 0, false⟩
  else if stepWait session 5 = false then
    ⟨1, [cmd1, cmd2, cmd3, copyCmd today],
      some "Timeout waiting for copy completion", 0, false⟩
  else if fileExists then
    if uploadOk = false then
      ⟨1, [cmd1, cmd2, cmd3, copyCmd today],
        some "Failed to upload file to S3", 1, true⟩
    else
      ⟨0, [cmd1, cmd2, cmd3, copyCmd today], none, 1, true⟩
  else
    ⟨1, [cmd1, cmd2, cmd3, copyCmd today],
      some ("File not found: " ++ NFS_PATH ++ "/" ++ CSV_FILE today), 1, false⟩

/-- main of src/ise-export.py (lines 150-244) after a successful connect,
invoke_shell and credential check.  It is line-identical to the test script
up to and including the fifth wait; then line 213 evaluates the f-string
containing CSV_FILE, a name never defined in this file, so Python raises
NameError before anything is written to the channel; the handler at line
242 catches it, logs the message and exits 1.  Lines 214-237 (the sixth
wait, the close, the file check and the upload) are unreachable. -/
def mainExport (session : Nat → Nat → Option String) : RunResult :=
  if stepWait session 0 = false then
    ⟨1, [], some "Timeout waiting for initial prompt", 0, false⟩
  else if stepWait session 1 = false then
    ⟨1, [cmd1], some "Timeout waiting for menu", 0, false⟩
  else if stepWait session 2 = false then
    ⟨1, [cmd1, cmd2], some "Timeout waiting for report start", 0, false⟩
  else if stepWait session 3 = false then
    ⟨1, [cmd1, cmd2], some "Timeout waiting for report completion", 0, false⟩
  else if stepWait session 4 = false then
    ⟨1, [cmd1, cmd2, cmd3], some "Timeout waiting for admin prompt", 0, false⟩
  else
    ⟨1, [cmd1, cmd2, cmd3], some nameErrorMsg, 0, false⟩

/-- The command lines main has written to the channel at the moment the
i-th wait_for_prompt call runs. -/
def sentBefore (today : String) : Nat → List String
  | 0 => []
  | 1 => [cmd1]
  | 2 => [cmd1, cmd2]
  | 3 => [cmd1, cmd2]
  | 4 => [cmd1, cmd2, cmd3]
  | _ => [cmd1, cmd2, cmd3, copyCmd today]

/-- The channel writes of a test-script run, as a function of the wait
results: each command is sent only after every earlier expectation has
been matched, and the wait for a command's own marker comes after the
write. -/
theorem mainTest_sent (today : String) (session : Nat → Nat → Option String)
    (f u : Bool) :
    (mainTest today session f u).sent =
      (if stepWait session 0 = true then
        cmd1 :: (if stepWait session 1 = true then
          cmd2 :: (if stepWait session 2 = true ∧ stepWait session 3 = true then
            cmd3 :: (if stepWait session 4 = true then [copyCmd today] else [])
          else [])
        else [])
      else []) := by
  cases h0 : stepWait session 0 <;> cases h1 : stepWait session 1 <;>
    cases h2 : stepWait session 2 <;> cases h3 : stepWait session 3 <;>
    cases h4 : stepWait session 4 <;> cases h5 : stepWait session 5 <;>
    cases f <;> cases u <;> simp [mainTest, h0, h1, h2, h3, h4, h5]

theorem mainExport_sent (session : Nat → Nat → Option String) :
    (mainExport session).sent =
      (if stepWait session 0 = true then
        cmd1 :: (if stepWait session 1 = true then
          cmd2 :: (if stepWait session 2 = true ∧ stepWait session 3 = true then
            [cmd3]
          else [])
        else [])
      else []) := by
  cases h0 : stepWait session 0 <;> cases h1 : stepWait session 1 <;>
    cases h2 : stepWait session 2 <;> cases h3 : stepWait session 3 <;>
    cases h4 : stepWait session 4 <;> simp [mainExport, h0, h1, h2, h3, h4]

theorem mainExport_exitCode (session : Nat → Nat → Option String) :
    (mainExport session).exitCode = 1 := by
  cases h0 : stepWait session 0 <;> cases h1 : stepWait session 1 <;>
    cases h2 : stepWait session 2 <;> cases h3 : stepWait session 3 <;>
    cases h4 : stepWait session 4 <;> simp [mainExport, h0, h1, h2, h3, h4]

/-- If two strings contain no newline, neither does their concatenation. -/
theorem noNewline_append (s t : String) (hs : ¬ '\n' ∈ s.data)
    (ht : ¬ '\n' ∈ t.data) : ¬ '\n' ∈ (s ++ t).data := by
  intro hmem
  rw [String.data_append] at hmem
  rcases List.mem_append.mp hmem with h | h
  · exact hs h
  · exact ht h

/-- The copy command is at least 42 characters long, so it differs from
every shorter string. -/
theorem copyCmd_ne_short (today s : String) (hs : s.length < 42) :
    copyCmd today ≠ s := by
  intro h
  have hlen := congrArg String.length h
  rw [copyCmd, CSV_FILE] at hlen
  simp only [String.length_append] at hlen
  have e1 : ("copy disk:/" : String).length = 11 := rfl
  have e2 : ("FullReport_" : String).length = 11 := rfl
  have e3 : (".csv" : String).length = 4 := rfl
  have e4 : (" repository NFS" : String).length = 15 := rfl
  have e5 : ("\n" : String).length = 1 := rfl
  rw [e1, e2, e3, e4, e5] at hlen
  omega

/-- A session whose channel delivers each expected marker at the first poll
of its wait. -/
def allPromptSession : Nat → Nat → Option String :=
  fun i k => if k = 0 then some (stepPrompt i) else none

theorem stepWait_allPrompt (i : Nat) : stepWait allPromptSession i = true :=
  wait_true_at_zero (allPromptSession i) (stepPrompt i) 30 pollInterval
    pollInterval_pos (by norm_num) (stepPrompt i) rfl (List.infix_refl _)

/-- A session whose channel delivers the expected markers of the first
three waits and then goes silent: the fourth wait (the report-completion
marker) times out. -/
def sessionFailAt3 : Nat → Nat → Option String :=
  fun i k => if i < 3 ∧ k = 0 then some (stepPrompt i) else none

theorem stepWait_dead (i : Nat) : stepWait (fun _ _ => none) i = false :=
  wait_false_of_none ((fun _ _ => none : Nat → Nat → Option String) i)
    (stepPrompt i) 30 pollInterval pollInterval_pos (fun k => rfl)

/-- C3.  The sequencer is fail-fast: whenever the i-th wait is the first
one to report no match, the test-script run stops there with exit status 1
and the error message naming that step, having written only the commands
that precede the failed wait — in particular a failure of wait 3 (the
report-completion marker) means the file-copy command is never sent — and
the export-script run behaves identically on its five reachable waits
(its sixth wait is unreachable, see the CSV_FILE NameError). -/
theorem sequencer_fail_fast (today : String)
    (session : Nat → Nat → Option String) (f u : Bool) (i : Nat)
    (hfirst : ∀ j, j < i → stepWait session j = true)
    (hfail : stepWait session i = false) :
    (i ≤ 5 → mainTest today session f u =
      ⟨1, sentBefore today i, some (timeoutMsg i), 0, false⟩) ∧
    (i ≤ 4 → mainExport session =
      ⟨1, sentBefore today i, some (timeoutMsg i), 0, false⟩) ∧
    copyCmd today ∉ sentBefore today 3 := by
  refine ⟨fun hi => ?_, fun hi => ?_, ?_⟩
  · interval_cases i
    · simp [mainTest, hfail, sentBefore, timeoutMsg]
    · have h0 := hfirst 0 (by omega)
      simp [mainTest, h0, hfail, sentBefore, timeoutMsg]
    · have h0 := hfirst 0 (by omega)
      have h1 := hfirst 1 (by omega)
      simp [mainTest, h0, h1, hfail, sentBefore, timeoutMsg]
    · have h0 := hfirst 0 (by omega)
      have h1 := hfirst 1 (by omega)
      have h2 := hfirst 2 (by omega)
      simp [mainTest, h0, h1, h2, hfail, sentBefore, timeoutMsg]
    · have h0 := hfirst 0 (by omega)
      have h1 := hfirst 1 (by omega)
      have h2 := hfirst 2 (by omega)
      have h3 := hfirst 3 (by omega)
      simp [mainTest, h0, h1, h2, h3, hfail, sentBefore, timeoutMsg]
    · have h0 := hfirst 0 (by omega)
      have h1 := hfirst 1 (by omega)
      have h2 := hfirst 2 (by omega)
      have h3 := hfirst 3 (by omega)
      have h4 := hfirst 4 (by omega)
      simp [mainTest, h0, h1, h2, h3, h4, hfail, sentBefore, timeoutMsg]
  · interval_cases i
    · simp [mainExport, hfail, sentBefore, timeoutMsg]
    · have h0 := hfirst 0 (by omega)
      simp [mainExport, h0, hfail, sentBefore, timeoutMsg]
    · have h0 := hfirst 0 (by omega)
      have h1 := hfirst 1 (by omega)
      simp [mainExport, h0, h1, hfail, sentBefore, timeoutMsg]
    · have h0 := hfirst 0 (by omega)
      have h1 := hfirst 1 (by omega)
      have h2 := hfirst 2 (by omega)
      simp [mainExport, h0, h1, h2, hfail, sentBefore, timeoutMsg]
    · have h0 := hfirst 0 (by omega)
      have h1 := hfirst 1 (by omega)
      have h2 := hfirst 2 (by omega)
      have h3 := hfirst 3 (by omega)
      simp [mainExport, h0, h1, h2, h3, hfail, sentBefore, timeoutMsg]
  · simp only [sentBefore, List.mem_cons, List.not_mem_nil, or_false]
    push_neg
    exact ⟨copyCmd_ne_short today cmd1 (by decide),
      copyCmd_ne_short today cmd2 (by decide)⟩

theorem sequencer_fail_fast_witness :
    (∀ j, j < 3 → stepWait sessionFailAt3 j = true) ∧
    stepWait sessionFailAt3 3 = false ∧
    mainTest "05-Feb-2025" sessionFailAt3 false false =
      ⟨1, sentBefore "05-Feb-2025" 3, some (timeoutMsg 3), 0, false⟩ := by
  have hfirst : ∀ j, j < 3 → stepWait sessionFailAt3 j = true := by
    intro j hj
    interval_cases j
    · exact wait_true_at_zero (sessionFailAt3 0) (stepPrompt 0) 30 pollInterval
        pollInterval_pos (by norm_num) (stepPrompt 0) rfl (List.infix_refl _)
    · exact wait_true_at_zero (sessionFailAt3 1) (stepPrompt 1) 30 pollInterval
        pollInterval_pos (by norm_num) (stepPrompt 1) rfl (List.infix_refl _)
    · exact wait_true_at_zero (sessionFailAt3 2) (stepPrompt 2) 30 pollInterval
        pollInterval_pos (by norm_num) (stepPrompt 2) rfl (List.infix_refl _)
  have hfail : stepWait sessionFailAt3 3 = false :=
    wait_false_of_none (sessionFailAt3 3) (stepPrompt 3) 30 pollInterval
      pollInterval_pos (fun k => rfl)
  exact ⟨hfirst, hfail,
    (sequencer_fail_fast "05-Feb-2025" sessionFailAt3 false false 3 hfirst
      hfail).1 (by omega)⟩

/-- C4 counterexample.  An exit path on which the transport is never
closed: the very first wait times out, the run exits with status 1, and
closeCount is 0 — the claim that every exit path closes the transport
exactly once is false (the sys.exit(1) calls of both scripts, and the
exception handlers of ise-export.py, all skip channel.close and
ssh.close). -/
theorem close_skipped_on_timeout_cex :
    (mainTest "05-Feb-2025" (fun _ _ => none) false false).closeCount = 0 ∧
    (mainTest "05-Feb-2025" (fun _ _ => none) false false).exitCode = 1 := by
  have h0 := stepWait_dead 0
  constructor <;> simp [mainTest, h0]

/-- C4 as amended.  The transport is closed exactly once on runs of the
test script in which all six waits succeed (including those that then fail
on the missing file or the upload, since the close precedes both), and is
not closed at all on any step-timeout exit; a run of the export script
never closes the transport (its close is unreachable, preceded by the
CSV_FILE NameError). -/
theorem close_only_on_full_success (today : String)
    (session : Nat → Nat → Option String) (f u : Bool) :
    (mainTest today session f u).closeCount =
      (if stepWait session 0 = true ∧ stepWait session 1 = true ∧
          stepWait session 2 = true ∧ stepWait session 3 = true ∧
          stepWait session 4 = true ∧ stepWait session 5 = true
        then 1 else 0) ∧
    (mainExport session).closeCount = 0 := by
  constructor
  · cases h0 : stepWait session 0 <;> cases h1 : stepWait session 1 <;>
      cases h2 : stepWait session 2 <;> cases h3 : stepWait session 3 <;>
      cases h4 : stepWait session 4 <;> cases h5 : stepWait session 5 <;>
      cases f <;> cases u <;> simp [mainTest, h0, h1, h2, h3, h4, h5]
  · cases h0 : stepWait session 0 <;> cases h1 : stepWait session 1 <;>
      cases h2 : stepWait session 2 <;> cases h3 : stepWait session 3 <;>
      cases h4 : stepWait session 4 <;> simp [mainExport, h0, h1, h2, h3, h4]

/-- C7.  If every one of the six script steps succeeds but the expected
file is absent on the NFS share, the test-script orchestrator logs the
FileNotFound message, does not attempt the upload, and exits with status 1;
conversely exit status 0 is only possible when every wait matched, the
file existed and the upload succeeded. -/
theorem orchestrator_file_missing_no_upload (today : String)
    (session : Nat → Nat → Option String) (f u : Bool) :
    ((∀ j, j ≤ 5 → stepWait session j = true) →
      mainTest today session false u =
        ⟨1, [cmd1, cmd2, cmd3, copyCmd today],
          some ("File not found: " ++ NFS_PATH ++ "/" ++ CSV_FILE today),
          1, false⟩) ∧
    ((mainTest today session f u).exitCode = 0 →
      f = true ∧ u = true ∧ ∀ j, j ≤ 5 → stepWait session j = true) := by
  constructor
  · intro hall
    have h0 := hall 0 (by omega)
    have h1 := hall 1 (by omega)
    have h2 := hall 2 (by omega)
    have h3 := hall 3 (by omega)
    have h4 := hall 4 (by omega)
    have h5 := hall 5 (by omega)
    simp [mainTest, h0, h1, h2, h3, h4, h5]
  · intro hz
    have h0 : stepWait session 0 = true := by
      cases hh : stepWait session 0 with
      | true => rfl
      | false => simp [mainTest, hh] at hz
    have h1 : stepWait session 1 = true := by
      cases hh : stepWait session 1 with
      | true => rfl
      | false => simp [mainTest, h0, hh] at hz
    have h2 : stepWait session 2 = true := by
      cases hh : stepWait session 2 with
      | true => rfl
      | false => simp [mainTest, h0, h1, hh] at hz
    have h3 : stepWait session 3 = true := by
      cases hh : stepWait session 3 with
      | true => rfl
      | false => simp [mainTest, h0, h1, h2, hh] at hz
    have h4 : stepWait session 4 = true := by
      cases hh : stepWait session 4 with
      | true => rfl
      | false => simp [mainTest, h0, h1, h2, h3, hh] at hz
    have h5 : stepWait session 5 = true := by
      cases hh : stepWait session 5 with
      | true => rfl
      | false => simp [mainTest, h0, h1, h2, h3, h4, hh] at hz
    have hf : f = true := by
      cases f with
      | true => rfl
      | false => simp [mainTest, h0, h1, h2, h3, h4, h5] at hz
    subst hf
    have hu : u = true := by
      cases u with
      | true => rfl
      | false => simp [mainTest, h0, h1, h2, h3, h4, h5] at hz
    subst hu
    exact ⟨rfl, rfl, fun j hj => by interval_cases j <;> assumption⟩

theorem orchestrator_file_missing_no_upload_witness :
    (∀ j, j ≤ 5 → stepWait allPromptSession j = true) ∧
    mainTest "05-Feb-2025" allPromptSession false false =
      ⟨1, [cmd1, cmd2, cmd3, copyCmd "05-Feb-2025"],
        some ("File not found: " ++ NFS_PATH ++ "/" ++ CSV_FILE "05-Feb-2025"),
        1, false⟩ := by
  have hall : ∀ j, j ≤ 5 → stepWait allPromptSession j = true :=
    fun j _ => stepWait_allPrompt j
  exact ⟨hall,
    (orchestrator_file_missing_no_upload "05-Feb-2025" allPromptSession
      false false).1 hall⟩

theorem sent_cases_test (today : String) (session : Nat → Nat → Option String)
    (f u : Bool) (c : String) (hc : c ∈ (mainTest today session f u).sent) :
    c = cmd1 ∨ c = cmd2 ∨ c = cmd3 ∨ c = copyCmd today := by
  rw [mainTest_sent] at hc
  split_ifs at hc <;> simp [List.mem_cons] at hc <;> tauto

theorem sent_cases_export (session : Nat → Nat → Option String) (c : String)
    (hc : c ∈ (mainExport session).sent) :
    c = cmd1 ∨ c = cmd2 ∨ c = cmd3 := by
  rw [mainExport_sent] at hc
  split_ifs at hc <;> simp [List.mem_cons] at hc <;> tauto

/-- Every command line the scripts can send is a newline-free body plus
exactly one terminating newline. -/
theorem newline_form (today : String) (htoday : ¬ '\n' ∈ today.data)
    (c : String) (hc : c = cmd1 ∨ c = cmd2 ∨ c = cmd3 ∨ c = copyCmd today) :
    ∃ b : String, c = b ++ "\n" ∧ ¬ '\n' ∈ b.data := by
  have hcsv : ¬ '\n' ∈ (CSV_FILE today).data := by
    rw [CSV_FILE]
    exact noNewline_append _ _
      (noNewline_append "FullReport_" today (by decide) htoday) (by decide)
  rcases hc with rfl | rfl | rfl | rfl
  · exact ⟨"application configure ise", by decide, by decide⟩
  · exact ⟨"16", by decide, by decide⟩
  · exact ⟨"0", by decide, by decide⟩
  · exact ⟨"copy disk:/" ++ CSV_FILE today ++ " repository NFS", rfl,
      noNewline_append _ _
        (noNewline_append "copy disk:/" (CSV_FILE today) (by decide) hcsv)
        (by decide)⟩

/-- C8.  The commands are written in script order, each one only after
every earlier expectation has been matched (and before its own wait), and
every command written is its body plus exactly one line terminator. -/
theorem commands_newline_terminated_in_order (today : String)
    (session : Nat → Nat → Option String) (f u : Bool)
    (htoday : ¬ '\n' ∈ today.data) :
    ((mainTest today session f u).sent =
      (if stepWait session 0 = true then
        cmd1 :: (if stepWait session 1 = true then
          cmd2 :: (if stepWait session 2 = true ∧ stepWait session 3 = true then
            cmd3 :: (if stepWait session 4 = true then [copyCmd today] else [])
          else [])
        else [])
      else [])) ∧
    (∀ c ∈ (mainTest today session f u).sent,
      ∃ b : String, c = b ++ "\n" ∧ ¬ '\n' ∈ b.data) ∧
    ((mainExport session).sent =
      (if stepWait session 0 = true then
        cmd1 :: (if stepWait session 1 = true then
          cmd2 :: (if stepWait session 2 = true ∧ stepWait session 3 = true then
            [cmd3]
          else [])
        else [])
      else [])) ∧
    (∀ c ∈ (mainExport session).sent,
      ∃ b : String, c = b ++ "\n" ∧ ¬ '\n' ∈ b.data) := by
  refine ⟨mainTest_sent today session f u, ?_, mainExport_sent session, ?_⟩
  · intro c hc
    exact newline_form today htoday c (sent_cases_test today session f u c hc)
  · intro c hc
    rcases sent_cases_export session c hc with h | h | h
    · exact newline_form today htoday c (Or.inl h)
    · exact newline_form today htoday c (Or.inr (Or.inl h))
    · exact newline_form today htoday c (Or.inr (Or.inr (Or.inl h)))

theorem commands_newline_terminated_in_order_witness :
    (mainTest "05-Feb-2025" allPromptSession false false).sent =
      [cmd1, cmd2, cmd3, copyCmd "05-Feb-2025"] ∧
    (∃ b : String, copyCmd "05-Feb-2025" = b ++ "\n" ∧ ¬ '\n' ∈ b.data) := by
  have H := commands_newline_terminated_in_order "05-Feb-2025"
    allPromptSession false false (by decide)
  have hsent : (mainTest "05-Feb-2025" allPromptSession false false).sent =
      [cmd1, cmd2, cmd3, copyCmd "05-Feb-2025"] := by
    rw [H.1]
    simp [stepWait_allPrompt]
  refine ⟨hsent, ?_⟩
  exact H.2.1 (copyCmd "05-Feb-2025") (by rw [hsent]; simp)

/-- C9.  In ise-export.py the name CSV_FILE is never defined, so once the
five reachable waits have all matched, evaluating the copy command raises
NameError and the run exits with status 1; the copy command is never
written, and no run of ise-export.py can exit with status 0. -/
theorem csv_file_undefined_run_always_fails
    (session : Nat → Nat → Option String) :
    ((∀ j, j ≤ 4 → stepWait session j = true) →
      mainExport session =
        ⟨1, [cmd1, cmd2, cmd3], some nameErrorMsg, 0, false⟩) ∧
    (mainExport session).exitCode = 1 ∧
    (∀ today : String, copyCmd today ∉ (mainExport session).sent) := by
  refine ⟨fun hall => ?_, mainExport_exitCode session, fun today hmem => ?_⟩
  · have h0 := hall 0 (by omega)
    have h1 := hall 1 (by omega)
    have h2 := hall 2 (by omega)
    have h3 := hall 3 (by omega)
    have h4 := hall 4 (by omega)
    simp [mainExport, h0, h1, h2, h3, h4]
  · rcases sent_cases_export session (copyCmd today) hmem with h | h | h
    · exact copyCmd_ne_short today cmd1 (by decide) h
    · exact copyCmd_ne_short today cmd2 (by decide) h
    · exact copyCmd_ne_short today cmd3 (by decide) h

theorem csv_file_undefined_run_always_fails_witness :
    (∀ j, j ≤ 4 → stepWait allPromptSession j = true) ∧
    mainExport allPromptSession =
      ⟨1, [cmd1, cmd2, cmd3], some nameErrorMsg, 0, false⟩ := by
  have hall : ∀ j, j ≤ 4 → stepWait allPromptSession j = true :=
    fun j _ => stepWait_allPrompt j
  exact ⟨hall, (csv_file_undefined_run_always_fails allPromptSession).1 hall⟩
